import Mathlib

/-!
Verification of the Meraki → Pi-hole reconciliation engine
(repository `meraki-to-pihole`).

The Python sources are shallowly embedded as executable Lean functions:

* `src/app/clients/pihole_client.py`  — DNS record store client
* `src/app/clients/meraki_client.py`  — inventory client
* `src/app/sync_logic.py`             — reconciliation engine (`sync_pihole_dns`)
* `src/app/meraki_pihole_sync.py`     — earlier engine variant (`main`,
  `add_dns_record_to_pihole`, `add_or_update_dns_record_in_pihole`)

Python strings are Lean `String`s; Python dicts appear as association
lists (`List (String × α)`) with insert-or-replace updates, which models
both membership tests and insertion-ordered iteration.  Fallible calls
return `Option`/`Except`.  External HTTP effects are made explicit: the
embedded functions additionally return the ordered list of calls they
issue.
-/

/-! ## String helpers mirroring the Python primitives used by the code -/

/-- Python `str.strip()` on the underlying character list: drop leading
and trailing whitespace. -/
def pyStripChars (l : List Char) : List Char :=
  ((l.dropWhile Char.isWhitespace).reverse.dropWhile Char.isWhitespace).reverse

/-- Python `str.strip()`. -/
def pyStrip (s : String) : String :=
  ⟨pyStripChars s.data⟩

/-- Python `str.lower()` (ASCII case folding suffices for the inputs the
program handles). -/
def pyLower (s : String) : String :=
  ⟨s.data.map Char.toLower⟩

/-- Python `s.replace(" ", "-")`: a single-character pattern, so the
substring replacement degenerates to a character map. -/
def pyReplaceSpaceDash (s : String) : String :=
  ⟨s.data.map (fun c => if c = ' ' then '-' else c)⟩

/-- Fuel-indexed worker for Python `str.replace(pat, repl)`:
left-to-right, non-overlapping occurrences.  The fuel is the length of
the scanned list, which bounds the number of steps. -/
def pyReplaceAux (pat repl : List Char) : Nat → List Char → List Char
  | 0, l => l
  | _, [] => []
  | fuel + 1, c :: rest =>
    if pat ≠ [] ∧ pat.isPrefixOf (c :: rest) then
      repl ++ pyReplaceAux pat repl fuel ((c :: rest).drop pat.length)
    else
      c :: pyReplaceAux pat repl fuel rest

/-- Python `s.replace(pat, repl)` for a non-empty pattern (every pattern
the program passes — the configured hostname suffix — is non-empty, a
mandatory configuration variable). -/
def pyReplace (s pat repl : String) : String :=
  ⟨pyReplaceAux pat.data repl.data s.data.length s.data⟩

/-- Contiguous-sublist test on character lists. -/
def charsInfixOf (pat : List Char) : List Char → Bool
  | [] => pat.isEmpty
  | c :: rest => pat.isPrefixOf (c :: rest) || charsInfixOf pat rest

/-- Python `sub in s` substring test. -/
def pyContainsSub (s sub : String) : Bool :=
  charsInfixOf sub.data s.data

/-- Python `s.endswith(suffix)`. -/
def pyEndsWith (s suffix : String) : Bool :=
  suffix.data.isSuffixOf s.data

/-- Python truthiness of an optional string (`None` and `""` are falsy). -/
def optTruthy : Option String → Bool
  | none => false
  | some s => s ≠ ""

/-! ## Association-list dictionaries (Python `dict` semantics) -/

/-- First-match lookup.  Embedded dictionaries never carry duplicate
keys, so this agrees with Python `dict` lookup. -/
def lookupStr {α : Type} : List (String × α) → String → Option α
  | [], _ => none
  | (k, v) :: rest, key => if k = key then some v else lookupStr rest key

/-- Python `d[k] = v`: replace in place if the key exists (keeping its
position, as Python dicts do), else append. -/
def setKey {α : Type} (m : List (String × α)) (k : String) (v : α) :
    List (String × α) :=
  if (lookupStr m k).isSome then
    m.map (fun p => if p.1 = k then (k, v) else p)
  else
    m ++ [(k, v)]

/-- Python `del d[k]`. -/
def removeKey {α : Type} (m : List (String × α)) (k : String) :
    List (String × α) :=
  m.filter (fun p => p.1 ≠ k)

/-! ## `src/app/clients/pihole_client.py` -/

/-- Cleaning applied by `add_or_update_dns_record_in_pihole`:
`domain.strip().lower()`. -/
def cleanDomain (s : String) : String :=
  pyLower (pyStrip s)

/-- Cleaning applied to the IP: `new_ip.strip()`. -/
def cleanIp (s : String) : String :=
  pyStrip s

/-- A write call issued against the DNS record store by the pihole
client (`action=add` / `action=delete` requests). -/
inductive DnsOp where
  | addRec (domain ip : String)
  | delRec (domain ip : String)
deriving DecidableEq

/-- The `for old_ip in list(existing_records_cache[domain_cleaned])`
loop of `add_or_update_dns_record_in_pihole` (pihole_client.py lines
166–184): walk the copied IP list, issuing a delete for every IP other
than the new one; a successful delete removes the IP from the live cache
list, a failed delete aborts the whole update.  Arguments: the copied
list being iterated and the live cache list; result: (loop completed
without failure, remaining live list, delete calls issued in order). -/
def delete_old_ips_loop (delOk : String → String → Bool) (d newIp : String) :
    List String → List String → Bool × List String × List DnsOp
  | [], remaining => (true, remaining, [])
  | old :: rest, remaining =>
    if old = newIp then
      delete_old_ips_loop delOk d newIp rest remaining
    else if delOk d old then
      let r := delete_old_ips_loop delOk d newIp rest (remaining.erase old)
      (r.1, r.2.1, DnsOp.delRec d old :: r.2.2)
    else
      (false, remaining, [DnsOp.delRec d old])

/-- Embedding of `add_or_update_dns_record_in_pihole(pihole_url,
api_key, domain, new_ip, existing_records_cache)` (pihole_client.py
lines 143–194).  The
HTTP outcomes of the delete/add requests are supplied as the oracles
`delOk`/`addOk`; the cache (`{domain: [ip, ...]}`) is threaded
explicitly.  Result: (returned boolean, cache after the call, store
calls issued in order).  The defensive `existing_records_cache is None`
branch is not modelled: the embedded cache is always a real dictionary,
as in every call site. -/
def add_or_update_dns_record_in_pihole
    (delOk addOk : String → String → Bool) (domain newIp : String)
    (cache : List (String × List String)) :
    Bool × List (String × List String) × List DnsOp :=
  let d := cleanDomain domain
  let ip := cleanIp newIp
  if d = "" ∨ ip = "" then
    (false, cache, [])
  else
    match lookupStr cache d with
    | some ips =>
      if ip ∈ ips then
        (true, cache, [])
      else
        let r := delete_old_ips_loop delOk d ip ips ips
        let cache1 :=
          if r.2.1.isEmpty then removeKey cache d else setKey cache d r.2.1
        if r.1 then
          if addOk d ip then
            let newIps := r.2.1 ++ (if ip ∈ r.2.1 then [] else [ip])
            (true, setKey cache1 d newIps, r.2.2 ++ [DnsOp.addRec d ip])
          else
            (false, cache1, r.2.2 ++ [DnsOp.addRec d ip])
        else
          (false, cache1, r.2.2)
    | none =>
      if addOk d ip then
        (true, setKey cache d [ip], [DnsOp.addRec d ip])
      else
        (false, cache, [DnsOp.addRec d ip])

/-- One reconciliation run's upsert phase: fold
`add_or_update_dns_record_in_pihole` over a list of (domain, ip) pairs,
accumulating the issued store calls. -/
def run_upserts (delOk addOk : String → String → Bool) :
    List (String × String) → List (String × List String) →
    List (String × List String) × List DnsOp
  | [], cache => (cache, [])
  | (d, ip) :: rest, cache =>
    let r := add_or_update_dns_record_in_pihole delOk addOk d ip cache
    let rec1 := run_upserts delOk addOk rest r.2.1
    (rec1.1, r.2.2 ++ rec1.2)

/-! ## `src/app/sync_logic.py` — the reconciliation engine

`sync_pihole_dns` (lines 165–264) is embedded as a pure function from
the fetched Meraki inventory, the `update_type` argument and the fetched
Pi-hole snapshot to the ordered list of store calls it issues plus the
history sample it appends.  The store client is used only through the
booleans its methods return, and neither the issued calls nor the
history sample depend on those booleans (they only drive the changelog
and the success counters), so the embedding needs no success oracles. -/

/-- An inventory record as consumed by `sync_pihole_dns`: the engine
reads only `client.get("name")` and `client["ip"]`. -/
structure SLClient where
  name : Option String
  ip : String
deriving DecidableEq

/-- The hostname derivation of sync_logic.py line 207 (and
meraki_pihole_sync.py line 560): `name.replace(" ", "-").lower()`. -/
def code_sanitize (s : String) : String :=
  pyLower (pyReplaceSpaceDash s)

/-- A call against the Pi-hole record store, as issued by
`sync_pihole_dns` through its `PiholeClient`: the initial
`get_custom_dns_records` listing, an `add_or_update_dns_record` upsert,
or a `remove_dns_record` removal. -/
inductive StoreCall where
  | listRecords
  | upsertRec (domain ip : String)
  | removeRec (domain ip : String)
deriving DecidableEq

/-- The per-client upsert loop (sync_logic.py lines 197–224): skip a
client with a falsy name, skip a name containing `":"`, otherwise call
`add_or_update_dns_record(sanitized_name + suffix, ip)`. -/
def upsert_calls (clients : List SLClient) (suffix : String) :
    List StoreCall :=
  clients.filterMap (fun c =>
    match c.name with
    | none => none
    | some nm =>
      if nm = "" then none
      else if pyContainsSub nm ":" then none
      else some (StoreCall.upsertRec (code_sanitize nm ++ suffix) c.ip))

/-- The stale-record sweep (sync_logic.py lines 226–233): for every
`(domain, ip)` of the snapshot, call `remove_dns_record(domain, ip)`
when `ip` is not a key of `meraki_clients_by_ip` and
`domain.replace(suffix, "")` is not a key of `meraki_clients_by_name`
(the sanitized names of the truthy-named clients). -/
def stale_removal_calls (clients : List SLClient)
    (snap : List (String × String)) (suffix : String) : List StoreCall :=
  let ips := clients.map (fun c => c.ip)
  let names := (clients.filter (fun c => optTruthy c.name)).map
    (fun c => code_sanitize (c.name.getD ""))
  snap.filterMap (fun p =>
    if !(ips.contains p.2) && !(names.contains (pyReplace p.1 suffix "")) then
      some (StoreCall.removeRec p.1 p.2)
    else none)

/-- The mapped-device tally (sync_logic.py lines 242–253): the number of
clients with a truthy name whose derived domain is a key of the given
records dictionary.  The `":"` skip of the upsert loop is not applied
here. -/
def mapped_count (clients : List SLClient)
    (records : List (String × String)) (suffix : String) : Nat :=
  (clients.filter (fun c =>
    optTruthy c.name &&
      (lookupStr records (code_sanitize (c.name.getD "") ++ suffix)).isSome)).length

/-- Embedding of `sync_pihole_dns(update_type)` (sync_logic.py lines
165–264).
Arguments: the inventory returned by `get_meraki_data`, the
`update_type` argument, the result of `get_custom_dns_records` (`none`
models the `None` hard-failure return) and the configured hostname
suffix.  Result: the ordered list of store calls issued and the
mapped-count history sample appended (`none` when no sample is
written). -/
def sync_pihole_dns (clients : List SLClient) (updateType : Option String)
    (fetched : Option (List (String × String))) (suffix : String) :
    List StoreCall × Option Nat :=
  if (match updateType with
      | none => true
      | some s => s = "pihole") && !clients.isEmpty then
    match fetched with
    | none => ([StoreCall.listRecords], none)
    | some snap =>
      (StoreCall.listRecords ::
        (upsert_calls clients suffix ++ stale_removal_calls clients snap suffix),
       some (mapped_count clients snap suffix))
  else
    ([], none)

/-- Modelled from the spec: the record store mutated by the missing
`PiholeClient` methods (`src/app/clients/pihole_client.py` defines no
such class; sync_logic.py only observes the booleans they return).  Per
§4.2 of the spec, a successful `add_or_update_dns_record` leaves the
hostname mapped to exactly the one new IP and `remove_dns_record`
deletes the exact pair; the record listing does not mutate. -/
def applyStoreCall (store : List (String × String)) :
    StoreCall → List (String × String)
  | StoreCall.listRecords => store
  | StoreCall.upsertRec d ip => setKey store d ip
  | StoreCall.removeRec d ip => store.filter (fun p => !(p.1 = d && p.2 = ip))

/-- Modelled from the spec: the store state after a sequence of
successful calls. -/
def applyStoreCalls (store : List (String × String))
    (calls : List StoreCall) : List (String × String) :=
  calls.foldl applyStoreCall store

/-- Follows the spec's words, for comparison with `code_sanitize`:
"`sanitize` replaces whitespace and any character outside `[a-z0-9-]`
with `-`", the result lower-cased. -/
def spec_sanitize (s : String) : String :=
  ⟨(pyLower s).data.map (fun c =>
    if ('a' ≤ c ∧ c ≤ 'z') ∨ ('0' ≤ c ∧ c ≤ '9') ∨ c = '-' then c else '-')⟩

/-! ## `_pihole_api_request` (pihole_client.py lines 5–60)

The function issues exactly one `requests.get`; its HTTP layer is
embedded as a script of outcomes, of which the single request consumes
the first.  The returned trace records every request the function
performs.  `ReqKind.authPost` exists so that the spec's claimed
re-authentication behaviour can be stated about the trace; the source
contains no such request. -/

/-- The body of the single HTTP response: parsed JSON, non-empty
non-JSON text, or an empty body. -/
inductive HttpBody (α : Type) where
  | jsonBody (v : α)
  | textBody (t : String)
  | noBody
deriving DecidableEq

/-- Outcome of one HTTP request: a network/request failure
(`requests.exceptions.RequestException`) or a reply with a status
code. -/
inductive HttpOutcome (α : Type) where
  | netErr
  | reply (status : Nat) (body : HttpBody α)
deriving DecidableEq

/-- The values `_pihole_api_request` returns on the non-`None` paths. -/
inductive ApiResult (α : Type) where
  | parsed (v : α)
  | emptyData
  | okNonJson
  | failNonJson
  | okEmpty
  | failEmpty
deriving DecidableEq

/-- A request performed by the client.  The source performs only plain
API `GET`s; `authPost` is the re-authentication request the spec
describes. -/
inductive ReqKind where
  | apiGet (url : String)
  | authPost
deriving DecidableEq

/-- URL normalization at the top of `_pihole_api_request` (lines 6–11):
on a trailing `/api.php`, strip the last seven characters (`api.php`,
keeping the slash — the source slices `[:-7]`), then delete every
`/admin`. -/
def piholeRequestUrl (u : String) : String :=
  let u1 := if pyEndsWith u "/api.php" then ⟨u.data.take (u.data.length - 7)⟩ else u
  if pyContainsSub u1 "/admin" then pyReplace u1 "/admin" "" else u1

/-- Interpretation of one reply (lines 23–49): `raise_for_status` raises
`HTTPError` for a 4xx/5xx status, which the handler turns into `none`;
otherwise the body is parsed.  The non-OK branches after a successful
`raise_for_status` are kept from the source although they are
unreachable there. -/
def interpretReply {α : Type} (status : Nat) (body : HttpBody α) :
    Option (ApiResult α) :=
  if 400 ≤ status ∧ status < 600 then
    none
  else
    match body with
    | HttpBody.jsonBody v => some (ApiResult.parsed v)
    | HttpBody.textBody t =>
      if status < 400 then
        if pyStrip t = "[]" then some ApiResult.emptyData
        else some ApiResult.okNonJson
      else some ApiResult.failNonJson
    | HttpBody.noBody =>
      if status < 400 then some ApiResult.okEmpty else some ApiResult.failEmpty

/-- Embedding of `_pihole_api_request(pihole_url, api_key, params)`: one
`requests.get` against the normalized URL, whose outcome is the head of
the script; a network failure or an HTTP error status yields `None`.
Result: (returned value, requests performed in order). -/
def pihole_api_request {α : Type} (piholeUrl : String)
    (script : List (HttpOutcome α)) :
    Option (ApiResult α) × List ReqKind :=
  match script with
  | [] => (none, [ReqKind.apiGet (piholeRequestUrl piholeUrl)])
  | HttpOutcome.netErr :: _ => (none, [ReqKind.apiGet (piholeRequestUrl piholeUrl)])
  | HttpOutcome.reply status body :: _ =>
    (interpretReply status body, [ReqKind.apiGet (piholeRequestUrl piholeUrl)])

/-! ## Module namespaces and the failing imports (C2)

Python's `from M import a, b` succeeds only when every requested name is
bound at `M`'s top level; the first missing name raises `ImportError`.
The top-level bindings of `src/app/clients/pihole_client.py` are its two
imports and its five function definitions. -/

/-- The names bound at the top level of
`src/app/clients/pihole_client.py`, in source order. -/
def piholeClientModuleNames : List String :=
  ["logging", "requests", "_pihole_api_request",
   "get_pihole_custom_dns_records", "add_dns_record_to_pihole",
   "delete_dns_record_from_pihole", "add_or_update_dns_record_in_pihole"]

/-- Python `from ... import n1, n2, ...`: error on the first requested
name the module does not bind. -/
def fromImport (exports requested : List String) : Except String Unit :=
  match requested.find? (fun n => !exports.contains n) with
  | some missing => Except.error missing
  | none => Except.ok ()

/-! ## `src/app/meraki_pihole_sync.py` — the broken add path (C6)

`add_dns_record_to_pihole` (lines 407–421) builds `params` but never
calls `_pihole_api_request`; it then evaluates the name `response`,
which is bound neither locally nor at module level, so Python raises
`NameError` before any success check can run. -/

/-- A Python exception escaping an embedded function. -/
inductive PyError where
  | nameError
deriving DecidableEq

/-- The shape `add_dns_record_to_pihole` would inspect if `response`
were bound: a dict with optional `success` and `message` fields. -/
structure PiholeReply where
  success : Option Bool
  message : Option String
deriving DecidableEq

/-- The success check of lines 412–421 (dead code in the source, kept
for fidelity): `response.get("success") is True`, else a message
containing `"added"`. -/
def addReplyIndicatesSuccess (r : PiholeReply) : Bool :=
  r.success == some true ||
    (match r.message with
     | some m => pyContainsSub (pyLower m) "added"
     | none => false)

/-- The binding the source never creates: `response` is read at line 412
without any assignment in the function body and without a module-level
`response`. -/
def mpsResponseBinding : Option PiholeReply := none

/-- Embedding of `add_dns_record_to_pihole(pihole_url, api_key, domain,
ip_address)` of meraki_pihole_sync.py (lines 407–421).  The read of the unbound
`response` raises `NameError` on every call. -/
def mps_add_dns_record_to_pihole (domain ip : String) :
    Except PyError Bool :=
  match mpsResponseBinding with
  | none => Except.error PyError.nameError
  | some r => Except.ok (addReplyIndicatesSuccess r)

/-- Embedding of `add_or_update_dns_record_in_pihole` of meraki_pihole_sync.py
(lines 441–486): identical to the pihole_client.py version except that
its add step calls the broken `add_dns_record_to_pihole` above, so a
`NameError` from there propagates.  Result on normal return: (returned
boolean, cache after the call). -/
def mps_add_or_update_dns_record (delOk : String → String → Bool)
    (domain newIp : String) (cache : List (String × List String)) :
    Except PyError (Bool × List (String × List String)) :=
  let d := cleanDomain domain
  let ip := cleanIp newIp
  if d = "" ∨ ip = "" then
    Except.ok (false, cache)
  else
    match lookupStr cache d with
    | some ips =>
      if ip ∈ ips then
        Except.ok (true, cache)
      else
        let r := delete_old_ips_loop delOk d ip ips ips
        let cache1 :=
          if r.2.1.isEmpty then removeKey cache d else setKey cache d r.2.1
        if r.1 then
          match mps_add_dns_record_to_pihole d ip with
          | Except.error e => Except.error e
          | Except.ok true =>
            let newIps := r.2.1 ++ (if ip ∈ r.2.1 then [] else [ip])
            Except.ok (true, setKey cache1 d newIps)
          | Except.ok false => Except.ok (false, cache1)
        else
          Except.ok (false, cache1)
    | none =>
      match mps_add_dns_record_to_pihole d ip with
      | Except.error e => Except.error e
      | Except.ok true => Except.ok (true, setKey cache d [ip])
      | Except.ok false => Except.ok (false, cache)

/-- The per-record loop of `main` (meraki_pihole_sync.py lines 557–572):
derive the domain, call the upsert, count success/failure.  The loop has
no `try`/`except`, so an exception from the upsert propagates out of the
loop — only the `if __name__` guard at lines 590–596 would catch it.
Result on normal return: (successful_syncs, failed_syncs). -/
def mps_sync_loop (delOk : String → String → Bool) (suffix : String) :
    List (String × String) → List (String × List String) →
    Except PyError (Nat × Nat)
  | [], _ => Except.ok (0, 0)
  | (name, ip) :: rest, cache =>
    let domain := code_sanitize name ++ suffix
    match mps_add_or_update_dns_record delOk domain ip cache with
    | Except.error e => Except.error e
    | Except.ok (b, cache1) =>
      match mps_sync_loop delOk suffix rest cache1 with
      | Except.error e => Except.error e
      | Except.ok (s, f) =>
        Except.ok (if b then (s + 1, f) else (s, f + 1))

/-! ## `src/app/clients/meraki_client.py` — the inventory client

`get_all_relevant_meraki_clients(dashboard, config)` is embedded over an
abstract dashboard: the organization-wide network listing and the two
per-network calls are supplied as `Except`-valued oracles, where
`Except.error ()` stands for the `meraki.exceptions.APIError` (or, for
the client listing, any exception) the corresponding `except` clause
catches. -/

/-- A network as returned by `getOrganizationNetworks` (only `id` and
`name` are read). -/
structure MNetwork where
  id : String
  name : String
deriving DecidableEq

/-- A raw client dictionary as returned by `getNetworkClients`; every
field is read through `.get(...)`, hence optional. -/
structure MRawClient where
  description : Option String
  dhcpHostname : Option String
  ip : Option String
  id : Option String
  mac : Option String
  fixedIp : Option String
deriving DecidableEq

/-- One DHCP subnet entry of `getNetworkApplianceDhcpSubnets`:
`fixedIpAssignments` is a dict keyed by MAC whose values carry an
optional `ip`. -/
structure MSubnet where
  fixedIpAssignments : List (String × Option String)
deriving DecidableEq

/-- The canonical record the client produces (meraki_client.py lines
168–172). -/
structure MRecord where
  name : String
  ip : String
  network_id : String
  network_name : String
  meraki_client_id : String
deriving DecidableEq

/-- Python `a or b` on the two optional name fields
(`client_name = client_name_desc or client_name_dhcp`, line 129). -/
def pyOrStr (a b : Option String) : Option String :=
  if optTruthy a then a else b

/-- Building `mac_to_reserved_ip_map` (lines 99–107): for every subnet's
`fixedIpAssignments`, when the MAC and the assignment's `ip` are truthy,
set `map[mac.lower()] = ip`. -/
def buildMacMap (subnets : List MSubnet) : List (String × String) :=
  subnets.foldl (fun m sub =>
    sub.fixedIpAssignments.foldl (fun m p =>
      if p.1 ≠ "" ∧ optTruthy p.2 then
        setKey m (pyLower p.1) (p.2.getD "")
      else m) m) []

/-- The three-step selection of `configured_fixed_ip` (lines 136–163):
the reservation map first; `client.fixedIp` only as a fallback, and only
when the reservation map is empty. -/
def configuredFixedIp (macMap : List (String × String)) (c : MRawClient) :
    Option String :=
  let s1 := if optTruthy c.mac then lookupStr macMap (pyLower (c.mac.getD ""))
            else none
  let s2 := if !(optTruthy s1) && optTruthy c.fixedIp then
              (if macMap.isEmpty then c.fixedIp else none)
            else s1
  if !(optTruthy s2) && macMap.isEmpty then c.fixedIp else s2

/-- The per-client relevance filter (lines 116–179): require truthy
name, current IP and client id, and a configured fixed IP equal to the
current IP; the accepted record is keyed by `client_id` in
`all_clients_map`. -/
def relevantClientEntry (net : MNetwork) (macMap : List (String × String))
    (c : MRawClient) : Option (String × MRecord) :=
  let nm := pyOrStr c.description c.dhcpHostname
  let conf := configuredFixedIp macMap c
  if optTruthy nm && optTruthy c.ip && optTruthy c.id then
    if optTruthy conf && conf == c.ip then
      some (c.id.getD "",
        { name := nm.getD "", ip := c.ip.getD "", network_id := net.id,
          network_name := net.name, meraki_client_id := c.id.getD "" })
    else none
  else none

/-- Everything one network contributes to `all_clients_map` (the
per-network body, lines 65–188).  A failing DHCP-subnet call is caught
by the inner `except` and leaves the reservation map empty; a failing
client listing is caught by the per-network `except` clauses and makes
the network contribute nothing. -/
def processNetwork (net : MNetwork) (dhcpRes : Except Unit (List MSubnet))
    (clientsRes : Except Unit (List MRawClient)) :
    List (String × MRecord) :=
  let macMap := match dhcpRes with
    | Except.error _ => []
    | Except.ok subnets => buildMacMap subnets
  match clientsRes with
  | Except.error _ => []
  | Except.ok cs => cs.filterMap (relevantClientEntry net macMap)

/-- Network resolution (lines 29–61): an `APIError` from the
organization-wide listing returns the empty result; with no requested
ids all listed networks are used; otherwise the requested ids are
validated against the listing (built into a name dict, last entry
winning as in a Python dict comprehension) and invalid ones dropped. -/
def resolveNetworks (netsRes : Except Unit (List MNetwork))
    (specified : List String) : List MNetwork :=
  match netsRes with
  | Except.error _ => []
  | Except.ok allNets =>
    if specified.isEmpty then
      allNets
    else if allNets.isEmpty then
      specified.map (fun nid => ⟨nid, "Unknown (ID: " ++ nid ++ ")"⟩)
    else
      let nameMap := allNets.foldl (fun m n => setKey m n.id n.name) []
      specified.filterMap (fun nid =>
        (lookupStr nameMap nid).map (fun nm => (⟨nid, nm⟩ : MNetwork)))

/-- Embedding of `get_all_relevant_meraki_clients(dashboard, config)`
(meraki_client.py lines 4–190): resolve the target networks, fold every network's
contribution into `all_clients_map` (insert-or-replace keyed by client
id), return the map's values in insertion order. -/
def get_all_relevant_meraki_clients (netsRes : Except Unit (List MNetwork))
    (specified : List String)
    (dhcpF : String → Except Unit (List MSubnet))
    (clientsF : String → Except Unit (List MRawClient)) : List MRecord :=
  let nets := resolveNetworks netsRes specified
  (nets.foldl (fun m net =>
    (processNetwork net (dhcpF net.id) (clientsF net.id)).foldl
      (fun m e => setKey m e.1 e.2) m) []).map (fun e => e.2)

/-! ## Shared lemmas -/

/-- A key has a `lookupStr` hit exactly when it occurs among the keys. -/
theorem lookupStr_isSome_iff {α : Type} (m : List (String × α)) (k : String) :
    (lookupStr m k).isSome = true ↔ k ∈ m.map Prod.fst := by
  induction m with
  | nil => simp [lookupStr]
  | cons p rest ih =>
    by_cases h : p.1 = k
    · simp [lookupStr, h]
    · simp [lookupStr, h, ih, Ne.symm h]

/-- Every element of `upsert_calls` is an `upsertRec`. -/
theorem upsert_calls_shape (clients : List SLClient) (suffix : String) :
    ∀ x ∈ upsert_calls clients suffix, ∃ d i, x = StoreCall.upsertRec d i := by
  intro x hx
  simp only [upsert_calls, List.mem_filterMap] at hx
  obtain ⟨c, _, hf⟩ := hx
  cases hn : c.name with
  | none => simp [hn] at hf
  | some nm =>
    simp only [hn] at hf
    split_ifs at hf
    cases hf
    exact ⟨_, _, rfl⟩

/-- Every element of `stale_removal_calls` is a `removeRec`. -/
theorem stale_removal_calls_shape (clients : List SLClient)
    (snap : List (String × String)) (suffix : String) :
    ∀ x ∈ stale_removal_calls clients snap suffix,
      ∃ d i, x = StoreCall.removeRec d i := by
  intro x hx
  simp only [stale_removal_calls, List.mem_filterMap] at hx
  obtain ⟨p, _, hf⟩ := hx
  split_ifs at hf
  exact ⟨p.1, p.2, (Option.some.inj hf).symm⟩

/-- Membership in the stale sweep's removal calls, characterized by the
source's two-condition check. -/
theorem mem_stale_removal_calls (clients : List SLClient)
    (snap : List (String × String)) (suffix : String) (d ip : String) :
    StoreCall.removeRec d ip ∈ stale_removal_calls clients snap suffix ↔
      (d, ip) ∈ snap ∧
      (clients.map (fun c => c.ip)).contains ip = false ∧
      ((clients.filter (fun c => optTruthy c.name)).map
        (fun c => code_sanitize (c.name.getD ""))).contains
          (pyReplace d suffix "") = false := by
  simp only [stale_removal_calls, List.mem_filterMap]
  constructor
  · rintro ⟨⟨pd, pip⟩, hp, hf⟩
    split_ifs at hf with h1
    obtain ⟨hd, hip⟩ : pd = d ∧ pip = ip := by
      have := Option.some.inj hf
      exact ⟨by injection this, by injection this⟩
    subst hd; subst hip
    simp only [Bool.and_eq_true, Bool.not_eq_true'] at h1
    exact ⟨hp, h1.1, h1.2⟩
  · rintro ⟨hmem, h1, h2⟩
    refine ⟨(d, ip), hmem, ?_⟩
    have hcond : (!(clients.map (fun c => c.ip)).contains ip &&
        !((clients.filter (fun c => optTruthy c.name)).map
          (fun c => code_sanitize (c.name.getD ""))).contains
            (pyReplace d suffix "")) = true := by
      rw [h1, h2]; rfl
    rw [if_pos hcond]

/-- Membership in the upsert calls, characterized by the source's
per-client skip rules and hostname derivation. -/
theorem mem_upsert_calls (clients : List SLClient) (suffix : String)
    (d i : String) :
    StoreCall.upsertRec d i ∈ upsert_calls clients suffix ↔
      ∃ c ∈ clients, ∃ nm, c.name = some nm ∧ nm ≠ "" ∧
        pyContainsSub nm ":" = false ∧
        d = code_sanitize nm ++ suffix ∧ i = c.ip := by
  simp only [upsert_calls, List.mem_filterMap]
  constructor
  · rintro ⟨c, hc, hf⟩
    cases hn : c.name with
    | none => simp [hn] at hf
    | some nm =>
      simp only [hn] at hf
      split_ifs at hf with h1 h2
      cases hf
      exact ⟨c, hc, nm, hn, h1, Bool.eq_false_iff.mpr h2, rfl, rfl⟩
  · rintro ⟨c, hc, nm, hn, hne, hcolon, rfl, rfl⟩
    refine ⟨c, hc, ?_⟩
    simp [hn, hne, hcolon]

/-- With a non-empty inventory and an `update_type` of `None` or
`"pihole"` and a fetched snapshot, the pass issues the record listing,
then the upsert calls, then the sweep's removals, and appends the
mapped-count sample. -/
theorem sync_trace_eq (clients : List SLClient) (updateType : Option String)
    (snap : List (String × String)) (suffix : String)
    (hu : updateType = none ∨ updateType = some "pihole")
    (hcl : clients ≠ []) :
    sync_pihole_dns clients updateType (some snap) suffix =
      (StoreCall.listRecords ::
        (upsert_calls clients suffix ++ stale_removal_calls clients snap suffix),
       some (mapped_count clients snap suffix)) := by
  obtain ⟨c, cs, rfl⟩ := List.exists_cons_of_ne_nil hcl
  rcases hu with h | h <;> subst h <;> simp [sync_pihole_dns]

/-! ## C10 — empty-inventory short-circuit -/

/-- C10: with an empty inventory fetch, `sync_pihole_dns` issues no
store call at all (no record listing, no upsert, no removal) and appends
no history sample, so any record store is left unchanged. -/
theorem c10_empty_inventory_short_circuit
    (updateType : Option String) (fetched : Option (List (String × String)))
    (suffix : String) (store : List (String × String)) :
    sync_pihole_dns [] updateType fetched suffix = ([], none) ∧
    applyStoreCalls store (sync_pihole_dns [] updateType fetched suffix).1 =
      store := by
  constructor
  · simp [sync_pihole_dns]
  · simp [sync_pihole_dns, applyStoreCalls]

/-! ## C2 — the failing imports -/

/-- C2: `src/app/clients/pihole_client.py` binds neither `PiholeClient`
nor `authenticate_to_pihole`, so the `from .clients.pihole_client
import` statements of sync_logic.py line 11 and app.py line 24 raise
`ImportError` on every load, and the modules defining `sync_pihole_dns`
and `get_mappings_data` can never finish importing. -/
theorem c2_pihole_client_imports_fail :
    fromImport piholeClientModuleNames ["PiholeClient"] =
      Except.error "PiholeClient" ∧
    fromImport piholeClientModuleNames
      ["authenticate_to_pihole", "get_pihole_custom_dns_records"] =
      Except.error "authenticate_to_pihole" ∧
    "PiholeClient" ∉ piholeClientModuleNames ∧
    "authenticate_to_pihole" ∉ piholeClientModuleNames :=
  ⟨rfl, rfl, by decide, by decide⟩

/-! ## C6 — the NameError in the add path -/

/-- C6: `add_dns_record_to_pihole` of meraki_pihole_sync.py reads the
never-bound `response`, so every call raises `NameError`; consequently
an `add_or_update_dns_record_in_pihole` call that reaches its add step
raises, and the exception propagates out of `main`'s untried per-record
loop, as evaluated here on a one-client inventory against an empty
record cache. -/
theorem c6_add_path_raises_name_error :
    (∀ domain ip, mps_add_dns_record_to_pihole domain ip =
      Except.error PyError.nameError) ∧
    mps_sync_loop (fun _ _ => true) ".lan" [("nas", "10.0.0.5")] [] =
      Except.error PyError.nameError := by
  constructor
  · intro domain ip; rfl
  · rfl

/-! ## C4 — no session recovery on 403 -/

/-- C4 (amended): `_pihole_api_request` issues exactly one HTTP request;
an HTTP-error status (400–599, hence any 403-class response) is caught
and turned into a `None` failure with no re-authentication request and
no retry. -/
theorem c4_http_error_returns_failure {α : Type} (url : String)
    (status : Nat) (body : HttpBody α) (rest : List (HttpOutcome α))
    (h1 : 400 ≤ status) (h2 : status < 600) :
    pihole_api_request url (HttpOutcome.reply status body :: rest) =
      (none, [ReqKind.apiGet (piholeRequestUrl url)]) := by
  simp [pihole_api_request, interpretReply, h1, h2]

/-- C4 witness: a 403 reply makes the call fail after the single
request. -/
theorem c4_http_error_returns_failure_witness :
    pihole_api_request "http://pi.hole/admin/api.php"
      [HttpOutcome.reply 403 (HttpBody.noBody : HttpBody Unit),
       HttpOutcome.reply 200 HttpBody.noBody] =
      (none, [ReqKind.apiGet "http://pi.hole/"]) :=
  (c4_http_error_returns_failure "http://pi.hole/admin/api.php" 403
    HttpBody.noBody [HttpOutcome.reply 200 HttpBody.noBody]
    (by decide) (by decide)).trans (by decide)

/-- C4 counterexample: a store call that receives a 403 reply performs
no re-authentication and no retry — a single request is made even though
a second scripted response is available — and the call is a plain
failure, contradicting the claimed invalidate–reauthenticate–retry
behaviour. -/
theorem c4_counterexample :
    (pihole_api_request "http://pi.hole/api.php"
      [HttpOutcome.reply 403 (HttpBody.noBody : HttpBody Unit),
       HttpOutcome.reply 200 HttpBody.noBody]).1 = none ∧
    (pihole_api_request "http://pi.hole/api.php"
      [HttpOutcome.reply 403 (HttpBody.noBody : HttpBody Unit),
       HttpOutcome.reply 200 HttpBody.noBody]).2.length = 1 ∧
    ReqKind.authPost ∉ (pihole_api_request "http://pi.hole/api.php"
      [HttpOutcome.reply 403 (HttpBody.noBody : HttpBody Unit),
       HttpOutcome.reply 200 HttpBody.noBody]).2 := by
  decide

/-! ## C8 — upsert no-op when the exact pair exists -/

/-- C8: when the cleaned pair is already in the cache,
`add_or_update_dns_record_in_pihole` returns `True`, issues no store
call, and leaves the cache unchanged; consequently a whole run of
upserts whose pairs are all already cached issues zero store calls and
leaves the cache as it was. -/
theorem c8_upsert_idempotent (delOk addOk : String → String → Bool) :
    (∀ domain newIp cache ips, cleanDomain domain ≠ "" → cleanIp newIp ≠ "" →
      lookupStr cache (cleanDomain domain) = some ips → cleanIp newIp ∈ ips →
      add_or_update_dns_record_in_pihole delOk addOk domain newIp cache =
        (true, cache, [])) ∧
    (∀ pairs cache,
      (∀ p ∈ pairs, cleanDomain p.1 ≠ "" ∧ cleanIp p.2 ≠ "" ∧
        ∃ ips, lookupStr cache (cleanDomain p.1) = some ips ∧
          cleanIp p.2 ∈ ips) →
      run_upserts delOk addOk pairs cache = (cache, [])) := by
  have base : ∀ domain newIp cache ips, cleanDomain domain ≠ "" →
      cleanIp newIp ≠ "" → lookupStr cache (cleanDomain domain) = some ips →
      cleanIp newIp ∈ ips →
      add_or_update_dns_record_in_pihole delOk addOk domain newIp cache =
        (true, cache, []) := by
    intro domain newIp cache ips hd hip hl hmem
    have hc : ¬(cleanDomain domain = "" ∨ cleanIp newIp = "") := by
      rintro (h | h)
      · exact hd h
      · exact hip h
    simp only [add_or_update_dns_record_in_pihole, hl]
    rw [if_neg hc]
    simp [hmem]
  refine ⟨base, ?_⟩
  intro pairs
  induction pairs with
  | nil => intro cache _; rfl
  | cons p rest ih =>
    intro cache hall
    obtain ⟨hd, hip, ips, hl, hmem⟩ := hall p (by simp)
    simp only [run_upserts]
    rw [base p.1 p.2 cache ips hd hip hl hmem]
    have := ih cache (fun q hq => hall q (by simp [hq]))
    simp [this]

/-- C8 witness: a cache already holding `test.com -> 1.2.3.4` makes the
upsert of that exact pair a pure no-op. -/
theorem c8_upsert_idempotent_witness :
    add_or_update_dns_record_in_pihole (fun _ _ => true) (fun _ _ => true)
      "test.com" "1.2.3.4" [("test.com", ["1.2.3.4"])] =
      (true, [("test.com", ["1.2.3.4"])], []) :=
  (c8_upsert_idempotent (fun _ _ => true) (fun _ _ => true)).1
    "test.com" "1.2.3.4" [("test.com", ["1.2.3.4"])] ["1.2.3.4"]
    (by decide) (by decide) (by decide) (by decide)

/-! ## C3 — old IPs are deleted before the new IP is written -/

/-- When every old IP differs from the new one and every delete
succeeds, the delete loop of `add_or_update_dns_record_in_pihole` runs
to completion, empties the domain's live IP list, and issues the deletes
in order. -/
theorem delete_old_ips_loop_all_deleted
    (delOk : String → String → Bool) (d newIp : String) :
    ∀ ips, (∀ o ∈ ips, o ≠ newIp ∧ delOk d o = true) →
      delete_old_ips_loop delOk d newIp ips ips =
        (true, [], ips.map (DnsOp.delRec d)) := by
  intro ips
  induction ips with
  | nil => intro _; rfl
  | cons o rest ih =>
    intro hall
    obtain ⟨hne, hok⟩ := hall o (by simp)
    have hrec := ih (fun x hx => hall x (by simp [hx]))
    simp only [delete_old_ips_loop, if_neg hne, hok, if_true,
      List.erase_cons_head, hrec, List.map_cons]

/-- C3 (amended): on an update of a cached hostname, the old IPs are
deleted from the store first and the new IP is written only afterwards:
the issued calls are the deletes (in cache order) followed by the single
add, and after the delete loop — before any add is issued — the cache
holds zero IPs for the hostname. -/
theorem c3_deletes_precede_add (delOk addOk : String → String → Bool)
    (domain newIp : String) (cache : List (String × List String))
    (ips : List String)
    (hd : cleanDomain domain ≠ "") (hip : cleanIp newIp ≠ "")
    (hl : lookupStr cache (cleanDomain domain) = some ips)
    (hnm : cleanIp newIp ∉ ips)
    (hdel : ∀ o ∈ ips, delOk (cleanDomain domain) o = true)
    (hadd : addOk (cleanDomain domain) (cleanIp newIp) = true) :
    add_or_update_dns_record_in_pihole delOk addOk domain newIp cache =
      (true,
       setKey (removeKey cache (cleanDomain domain)) (cleanDomain domain)
         [cleanIp newIp],
       ips.map (DnsOp.delRec (cleanDomain domain)) ++
         [DnsOp.addRec (cleanDomain domain) (cleanIp newIp)]) ∧
    delete_old_ips_loop delOk (cleanDomain domain) (cleanIp newIp) ips ips =
      (true, [], ips.map (DnsOp.delRec (cleanDomain domain))) := by
  have hloop := delete_old_ips_loop_all_deleted delOk (cleanDomain domain)
    (cleanIp newIp) ips
    (fun o ho => ⟨fun h => hnm (h ▸ ho), hdel o ho⟩)
  refine ⟨?_, hloop⟩
  have hc : ¬(cleanDomain domain = "" ∨ cleanIp newIp = "") := by
    rintro (h | h)
    · exact hd h
    · exact hip h
  simp only [add_or_update_dns_record_in_pihole, hl]
  rw [if_neg hc]
  simp [hnm, hloop, hadd]

/-- C3 witness: updating `test.com` from `1.1.1.1` to `2.2.2.2`
issues the delete first, then the add, with an intermediate cache
holding no IP for `test.com`. -/
theorem c3_deletes_precede_add_witness :
    add_or_update_dns_record_in_pihole (fun _ _ => true) (fun _ _ => true)
      "test.com" "2.2.2.2" [("test.com", ["1.1.1.1"])] =
      (true, [("test.com", ["2.2.2.2"])],
       [DnsOp.delRec "test.com" "1.1.1.1",
        DnsOp.addRec "test.com" "2.2.2.2"]) :=
  (c3_deletes_precede_add (fun _ _ => true) (fun _ _ => true)
    "test.com" "2.2.2.2" [("test.com", ["1.1.1.1"])] ["1.1.1.1"]
    (by decide) (by decide) (by decide) (by decide)
    (by intro o ho; rfl) (by rfl)).1.trans (by decide)

/-- C3 counterexample: in the update `test.com : 1.1.1.1 → 2.2.2.2` with
every store call succeeding, the delete of the old IP is issued strictly
before the add of the new IP (the issued calls are
`[delete, add]`), and after the delete loop the cache holds zero records
for `test.com` — contradicting "the old IP is removed only after the
write of the new IP has succeeded, so there is never an intermediate
state with zero records for that hostname". -/
theorem c3_counterexample :
    (add_or_update_dns_record_in_pihole (fun _ _ => true) (fun _ _ => true)
      "test.com" "2.2.2.2" [("test.com", ["1.1.1.1"])]).2.2 =
      [DnsOp.delRec "test.com" "1.1.1.1",
       DnsOp.addRec "test.com" "2.2.2.2"] ∧
    delete_old_ips_loop (fun _ _ => true) "test.com" "2.2.2.2"
      ["1.1.1.1"] ["1.1.1.1"] = (true, [], [DnsOp.delRec "test.com" "1.1.1.1"]) ∧
    lookupStr (removeKey [("test.com", ["1.1.1.1"])] "test.com")
      "test.com" = none := by
  refine ⟨?_, ?_, ?_⟩ <;> decide

/-! ## C1 — the stale sweep has no suffix scope fencing -/

/-- C1 (amended): in a pass that reaches the sweep, a remove call is
issued for a snapshot pair exactly when its IP is not among the
inventory IPs and its hostname with every occurrence of the suffix
deleted is not among the sanitized inventory names — the sweep applies
no suffix scope fencing, so a hostname that does not carry the suffix
can be removed. -/
theorem c1_sweep_removal_condition (clients : List SLClient)
    (updateType : Option String) (snap : List (String × String))
    (suffix : String)
    (hu : updateType = none ∨ updateType = some "pihole")
    (hcl : clients ≠ []) (d ip : String) :
    StoreCall.removeRec d ip ∈
        (sync_pihole_dns clients updateType (some snap) suffix).1 ↔
      (d, ip) ∈ snap ∧
      (clients.map (fun c => c.ip)).contains ip = false ∧
      ((clients.filter (fun c => optTruthy c.name)).map
        (fun c => code_sanitize (c.name.getD ""))).contains
          (pyReplace d suffix "") = false := by
  rw [sync_trace_eq clients updateType snap suffix hu hcl]
  rw [← mem_stale_removal_calls clients snap suffix d ip]
  simp only [List.mem_cons, List.mem_append]
  constructor
  · rintro (h | h | h)
    · cases h
    · obtain ⟨d1, i1, h1⟩ := upsert_calls_shape clients suffix _ h
      cases h1
    · exact h
  · intro h
    exact Or.inr (Or.inr h)

/-- C1 witness: with inventory `[nas -> 10.0.0.5]` and suffix `.lan`,
the sweep issues a remove for the snapshot record
`other-app.example.com -> 1.1.1.1`. -/
theorem c1_sweep_removal_condition_witness :
    StoreCall.removeRec "other-app.example.com" "1.1.1.1" ∈
      (sync_pihole_dns [⟨some "nas", "10.0.0.5"⟩] none
        (some [("other-app.example.com", "1.1.1.1")]) ".lan").1 :=
  (c1_sweep_removal_condition [⟨some "nas", "10.0.0.5"⟩] none
    [("other-app.example.com", "1.1.1.1")] ".lan" (Or.inl rfl)
    (by decide) "other-app.example.com" "1.1.1.1").mpr
    ⟨by decide, by decide, by decide⟩

/-- C1 counterexample: the pass removes the store record
`other-app.example.com -> 1.1.1.1` although its hostname does not end
with the configured suffix `.lan`, contradicting the claimed scope
fencing. -/
theorem c1_counterexample :
    StoreCall.removeRec "other-app.example.com" "1.1.1.1" ∈
      (sync_pihole_dns [⟨some "nas", "10.0.0.5"⟩] none
        (some [("other-app.example.com", "1.1.1.1")]) ".lan").1 ∧
    pyEndsWith "other-app.example.com" ".lan" = false := by
  refine ⟨?_, ?_⟩ <;> decide

/-! ## C5 — hostname derivation and skip rules -/

/-- C5 (amended): in a pass that reaches the store phase, an upsert call
is issued exactly for the inventory records whose name is present,
non-empty and free of `":"`, with target hostname
`name.replace(" ", "-").lower() + suffix` — only spaces are replaced,
all other characters (e.g. `_`) are preserved. -/
theorem c5_hostname_derivation (clients : List SLClient)
    (updateType : Option String) (snap : List (String × String))
    (suffix : String)
    (hu : updateType = none ∨ updateType = some "pihole")
    (hcl : clients ≠ []) (d i : String) :
    StoreCall.upsertRec d i ∈
        (sync_pihole_dns clients updateType (some snap) suffix).1 ↔
      ∃ c ∈ clients, ∃ nm, c.name = some nm ∧ nm ≠ "" ∧
        pyContainsSub nm ":" = false ∧
        d = code_sanitize nm ++ suffix ∧ i = c.ip := by
  rw [sync_trace_eq clients updateType snap suffix hu hcl]
  rw [← mem_upsert_calls clients suffix d i]
  simp only [List.mem_cons, List.mem_append]
  constructor
  · rintro (h | h | h)
    · cases h
    · exact h
    · obtain ⟨d1, i1, h1⟩ := stale_removal_calls_shape clients snap suffix _ h
      cases h1
  · intro h
    exact Or.inr (Or.inl h)

/-- C5 witness: the record named `"Living Room TV"` with suffix `.lan`
is synced as `living-room-tv.lan`. -/
theorem c5_hostname_derivation_witness :
    StoreCall.upsertRec "living-room-tv.lan" "10.0.0.9" ∈
      (sync_pihole_dns [⟨some "Living Room TV", "10.0.0.9"⟩] none
        (some []) ".lan").1 :=
  (c5_hostname_derivation [⟨some "Living Room TV", "10.0.0.9"⟩] none
    [] ".lan" (Or.inl rfl) (by decide) "living-room-tv.lan" "10.0.0.9").mpr
    ⟨⟨some "Living Room TV", "10.0.0.9"⟩, by decide, "Living Room TV",
      rfl, by decide, by decide, by decide, rfl⟩

/-- C5 counterexample: the record named `"My_Device"` is synced as
`my_device.lan`, not as the spec-sanitized `my-device.lan` — the code
replaces only spaces, not every character outside `[a-z0-9-]`. -/
theorem c5_counterexample :
    StoreCall.upsertRec "my_device.lan" "10.0.0.7" ∈
      (sync_pihole_dns [⟨some "My_Device", "10.0.0.7"⟩] none
        (some []) ".lan").1 ∧
    StoreCall.upsertRec "my-device.lan" "10.0.0.7" ∉
      (sync_pihole_dns [⟨some "My_Device", "10.0.0.7"⟩] none
        (some []) ".lan").1 ∧
    spec_sanitize "My_Device" ++ ".lan" = "my-device.lan" ∧
    code_sanitize "My_Device" ≠ spec_sanitize "My_Device" := by
  refine ⟨?_, ?_, ?_, ?_⟩ <;> decide

/-! ## C7 — the history sample counts against the pre-pass snapshot -/

/-- C7 (amended): a pass that reaches the store phase appends exactly
one history sample, and its mapped count is the number of truthy-named
inventory records whose derived hostname is a key of the snapshot
fetched at the start of the pass — not of the post-mutation store
state. -/
theorem c7_history_counts_prepass_snapshot (clients : List SLClient)
    (updateType : Option String) (snap : List (String × String))
    (suffix : String)
    (hu : updateType = none ∨ updateType = some "pihole")
    (hcl : clients ≠ []) :
    (sync_pihole_dns clients updateType (some snap) suffix).2 =
      some ((clients.filter (fun c => optTruthy c.name &&
        decide ((code_sanitize (c.name.getD "") ++ suffix) ∈
          snap.map Prod.fst))).length) := by
  rw [sync_trace_eq clients updateType snap suffix hu hcl]
  simp only [mapped_count, Option.some.injEq]
  congr 1
  apply List.filter_congr
  intro c _
  by_cases h : optTruthy c.name
  · simp only [h, Bool.true_and]
    by_cases hm : (code_sanitize (c.name.getD "") ++ suffix) ∈ snap.map Prod.fst
    · simp [hm, (lookupStr_isSome_iff snap _).mpr hm]
    · simp only [hm, decide_False]
      rw [← Bool.not_eq_true]
      intro hc
      exact hm ((lookupStr_isSome_iff snap _).mp hc)
  · simp [h]

/-- C7 witness: with inventory `[nas -> 10.0.0.5]` and an empty pre-pass
snapshot the appended sample is `0`. -/
theorem c7_history_counts_prepass_snapshot_witness :
    (sync_pihole_dns [⟨some "nas", "10.0.0.5"⟩] none (some []) ".lan").2 =
      some 0 :=
  (c7_history_counts_prepass_snapshot [⟨some "nas", "10.0.0.5"⟩] none
    [] ".lan" (Or.inl rfl) (by decide)).trans (by decide)

/-- C7 counterexample: starting from an empty store, the pass writes
`nas.lan -> 10.0.0.5` and so the post-mutation store snapshot maps one
inventory record, yet the appended history sample is `0` — the code
counts against the pre-pass snapshot, not the post-mutation state. -/
theorem c7_counterexample :
    (sync_pihole_dns [⟨some "nas", "10.0.0.5"⟩] none (some []) ".lan").2 =
      some 0 ∧
    mapped_count [⟨some "nas", "10.0.0.5"⟩]
      (applyStoreCalls []
        (sync_pihole_dns [⟨some "nas", "10.0.0.5"⟩] none (some []) ".lan").1)
      ".lan" = 1 := by
  refine ⟨?_, ?_⟩ <;> decide

/-! ## C9 — partial-failure containment in the inventory fetch -/

/-- A network whose client listing raises contributes nothing to
`all_clients_map`. -/
theorem processNetwork_clients_error (net : MNetwork)
    (dhcpRes : Except Unit (List MSubnet)) :
    processNetwork net dhcpRes (Except.error ()) = [] := by
  simp [processNetwork]

/-- C9: a per-network failure of the client listing is contained — the
fetch returns exactly what it returns without that network, keeping the
records of the other networks — while an error from the
organization-wide network listing makes the whole fetch return the
empty list. -/
theorem c9_partial_failure_containment (netsPre netsPost : List MNetwork)
    (bad : MNetwork)
    (dhcpF : String → Except Unit (List MSubnet))
    (clientsF : String → Except Unit (List MRawClient))
    (hbad : clientsF bad.id = Except.error ()) :
    get_all_relevant_meraki_clients (Except.ok (netsPre ++ bad :: netsPost))
        [] dhcpF clientsF =
      get_all_relevant_meraki_clients (Except.ok (netsPre ++ netsPost))
        [] dhcpF clientsF ∧
    ∀ specified, get_all_relevant_meraki_clients (Except.error ())
        specified dhcpF clientsF = [] := by
  constructor
  · simp only [get_all_relevant_meraki_clients, resolveNetworks,
      List.isEmpty_nil, if_true]
    rw [List.foldl_append, List.foldl_append, List.foldl_cons]
    rw [hbad, processNetwork_clients_error]
    rfl
  · intro specified
    simp [get_all_relevant_meraki_clients, resolveNetworks]

/-- Oracle for the C9 witness: the client listing raises on network
`n2` and returns one relevant fixed-IP client on every other network. -/
def c9ClientsF : String → Except Unit (List MRawClient) :=
  fun nid =>
    if nid = "n2" then Except.error ()
    else Except.ok [{ description := some "nas", dhcpHostname := none,
                      ip := some "10.0.0.5", id := some "c1",
                      mac := some "AA:BB:CC:DD:EE:FF",
                      fixedIp := some "10.0.0.5" }]

/-- Oracle for the C9 witness: no DHCP subnet data anywhere. -/
def c9DhcpF : String → Except Unit (List MSubnet) :=
  fun _ => Except.ok []

/-- C9 witness: with two networks of which `n2`'s client listing raises,
the fetch returns the same records as with `n1` alone. -/
theorem c9_partial_failure_containment_witness :
    get_all_relevant_meraki_clients
        (Except.ok [⟨"n1", "Net1"⟩, ⟨"n2", "Net2"⟩]) [] c9DhcpF c9ClientsF =
      get_all_relevant_meraki_clients
        (Except.ok [⟨"n1", "Net1"⟩]) [] c9DhcpF c9ClientsF :=
  (c9_partial_failure_containment [⟨"n1", "Net1"⟩] [] ⟨"n2", "Net2"⟩
    c9DhcpF c9ClientsF rfl).1
